import Mathlib

/-!
Shallow embedding of the transaction lifecycle engine in
billy/models/transaction.py (class TransactionModel).

Modelling conventions:

* Machine integers of the source are modelled as Nat (no overflow is
  relevant: statuses and types are small enumeration codes, counters only
  grow by one).
* Timestamps produced by tables.now_func() are opaque Nat values supplied
  by the caller of each operation, one per textual call site.
* Identifiers produced by make_guid (billy.utils.generic, not among the
  sources at hand) are supplied as an explicit new_guid parameter,
  mirroring the external identifier provider of the design.
* The SQLAlchemy session together with the database is modelled as an
  explicit DB value holding the stored rows.  session.add followed by
  session.flush on a row is modelled by replaceBy, which overwrites the
  first stored row carrying the same guid and appends the row when no such
  row exists.  Durable persistence happens at flush: an operation that
  raises before flushing leaves the store unchanged.
* Python exceptions become explicit results.  ValueError and TypeError
  raised for bad caller input both fall in the InvalidArgument class of the
  design's error taxonomy (Err.invalidArgument); the missing-record error
  raised by BaseTableModel.get(..., raise_error=True) (base model not among
  the sources at hand; modelled from the spec: fetch by id yields the
  record or NotFound) is Err.notFound; SystemExit and KeyboardInterrupt
  are the fatal outcomes (PRes.fatal), re-raised by process_one.
* The payment processor (the gateway) is a record of pure functions whose
  results say whether each call returns a value, raises a non-fatal
  exception carrying a message, or raises a fatal termination signal.
  process_one additionally returns the list of gateway-interaction events
  in the order they happened, so that statements about which calls were
  made, and in which order relative to the customer flush, can be proved.
-/

namespace Billy

/-- A row of the transaction table.  Field names follow the source.  The
columns given a default here (external_id, error_message, failure_count)
are not assigned by TransactionModel.create; their defaults are modelled
from the spec (tables.py is not among the sources at hand): external_id
absent until the gateway succeeds, error_message absent, failure_count
starts at 0. -/
structure Transaction where
  guid : String
  subscription_guid : String
  transaction_type : Nat
  amount : Nat
  payment_uri : Option String
  status : Nat
  scheduled_at : Nat
  refund_to_guid : Option String
  external_id : Option String := none
  error_message : Option String := none
  failure_count : Nat := 0
  created_at : Nat
  updated_at : Nat
  deriving DecidableEq

/-- A row of the customer table, restricted to what process_one reads and
writes: the guid and the gateway-side identity. -/
structure Customer where
  guid : String
  external_id : Option String
  deriving DecidableEq

/-- A row of the subscription table, restricted to the
subscription-to-customer reference that process_one traverses
(transaction.subscription.customer). -/
structure Subscription where
  guid : String
  customer_guid : String
  deriving DecidableEq

/-- The stored rows visible to the engine. -/
structure DB where
  transactions : List Transaction
  subscriptions : List Subscription
  customers : List Customer
  deriving DecidableEq

/-- Find the first element whose key equals g (fetch by guid). -/
def findBy (key : α → String) (g : String) : List α → Option α
  | [] => none
  | x :: xs => if key x = g then some x else findBy key g xs

/-- Overwrite the first element whose key equals the key of y, appending y
when no such element exists.  This is session.add + session.flush for a row
keyed by its guid. -/
def replaceBy (key : α → String) (y : α) : List α → List α
  | [] => [y]
  | x :: xs => if key x = key y then y :: xs else x :: replaceBy key y xs

def findTransaction (db : DB) (g : String) : Option Transaction :=
  findBy (fun t => t.guid) g db.transactions

def upsertTransaction (db : DB) (t : Transaction) : DB :=
  { db with transactions := replaceBy (fun x => x.guid) t db.transactions }

def findCustomer (db : DB) (g : String) : Option Customer :=
  findBy (fun c => c.guid) g db.customers

def upsertCustomer (db : DB) (c : Customer) : DB :=
  { db with customers := replaceBy (fun x => x.guid) c db.customers }

def findSubscription (db : DB) (g : String) : Option Subscription :=
  findBy (fun s => s.guid) g db.subscriptions

/-- The traversal transaction.subscription.customer. -/
def resolveCustomer (db : DB) (t : Transaction) : Option Customer :=
  match findSubscription db t.subscription_guid with
  | none => none
  | some s => findCustomer db s.customer_guid

/-- The default maximum retry count. -/
def DEFAULT_MAXIMUM_RETRY : Nat := 10

def TYPE_CHARGE : Nat := 0
def TYPE_REFUND : Nat := 1
def TYPE_PAYOUT : Nat := 2

def TYPE_ALL : List Nat := [TYPE_CHARGE, TYPE_REFUND, TYPE_PAYOUT]

def STATUS_INIT : Nat := 0
def STATUS_RETRYING : Nat := 1
def STATUS_DONE : Nat := 2
def STATUS_FAILED : Nat := 3
def STATUS_CANCELED : Nat := 4

def STATUS_ALL : List Nat :=
  [STATUS_INIT, STATUS_RETRYING, STATUS_DONE, STATUS_FAILED, STATUS_CANCELED]

/-- Synchronous errors of the engine, in the taxonomy of the design:
ValueError and TypeError raised for bad caller input are invalidArgument,
a missing record is notFound. -/
inductive Err where
  | invalidArgument (msg : String)
  | notFound
  deriving DecidableEq

/-- TransactionModel.create.  The source checks, in order: the transaction
type is recognized; when refund_to_guid is given, the type is refund, no
payment_uri is given, the referenced transaction exists and is a charge.
Only then is the new row constructed and flushed (appended to the store);
every failing branch leaves the store unchanged. -/
def create (db : DB) (subscription_guid : String) (transaction_type : Nat)
    (amount : Nat) (scheduled_at : Nat) (payment_uri : Option String)
    (refund_to_guid : Option String) (new_guid : String) (now : Nat) :
    Except Err String × DB :=
  if transaction_type ∈ TYPE_ALL then
    let go : Except Err String × DB :=
      let tx : Transaction :=
        { guid := "TX" ++ new_guid
          subscription_guid := subscription_guid
          transaction_type := transaction_type
          amount := amount
          payment_uri := payment_uri
          status := STATUS_INIT
          scheduled_at := scheduled_at
          refund_to_guid := refund_to_guid
          created_at := now
          updated_at := now }
      (.ok tx.guid, { db with transactions := db.transactions ++ [tx] })
    match refund_to_guid with
    | some rg =>
      if transaction_type = TYPE_REFUND then
        match payment_uri with
        | some _ =>
          (.error (.invalidArgument
            "payment_uri cannot be set to a refund transaction"), db)
        | none =>
          match findTransaction db rg with
          | none => (.error .notFound, db)
          | some refund_transaction =>
            if refund_transaction.transaction_type = TYPE_CHARGE then go
            else
              (.error (.invalidArgument
                "Only charge transaction can be refunded"), db)
      else
        (.error (.invalidArgument
          "refund_to_guid can only be set to a refund transaction"), db)
    | none => go
  else (.error (.invalidArgument "Invalid transaction_type"), db)

/-- The keyword arguments of TransactionModel.update: an optional status
value, plus the names of any unrecognized keyword arguments supplied. -/
structure UpdateArgs where
  status : Option Nat := none
  extra : List String := []
  deriving DecidableEq

/-- TransactionModel.update.  Fetch by guid (notFound when absent), stage a
refreshed updated_at, validate and stage the status when supplied, reject
unrecognized attributes, and only then flush.  The staged row reaches the
store only on the success path. -/
def update (db : DB) (guid : String) (args : UpdateArgs) (now : Nat) :
    Except Err Unit × DB :=
  match findTransaction db guid with
  | none => (.error .notFound, db)
  | some transaction =>
    let t1 : Transaction := { transaction with updated_at := now }
    match args.status with
    | some s =>
      if s ∈ STATUS_ALL then
        let t2 : Transaction := { t1 with status := s }
        if args.extra = [] then (.ok (), upsertTransaction db t2)
        else (.error (.invalidArgument "Unknown attributes to update"), db)
      else (.error (.invalidArgument "Invalid status"), db)
    | none =>
      if args.extra = [] then (.ok (), upsertTransaction db t1)
      else (.error (.invalidArgument "Unknown attributes to update"), db)

/-- Outcome of one gateway call: a returned value, a non-fatal exception
with its message, or a fatal termination signal. -/
inductive GwResult (α : Type) where
  | ok (val : α)
  | err (msg : String)
  | fatal
  deriving DecidableEq

/-- The payment processor interface consumed by process_one. -/
structure Processor where
  create_customer : Customer → GwResult String
  prepare_customer : Customer → Option String → GwResult Unit
  charge : Transaction → GwResult String
  payout : Transaction → GwResult String
  refund : Transaction → GwResult String

/-- Observable interactions of one process_one run: the gateway calls
made, and the flush of the customer row after create_customer. -/
inductive Event where
  | createCustomer
  | persistCustomer
  | prepareCustomer
  | charge
  | payout
  | refund
  deriving DecidableEq

/-- Result of the try block of process_one: the gateway-assigned id on
success, the message of an absorbed non-fatal exception on failure, or a
fatal signal; each carries the store as left by the block (the customer
row may have been flushed) and the events so far. -/
inductive AttemptRes where
  | success (tid : String) (db : DB) (tr : List Event)
  | failure (e : String) (db : DB) (tr : List Event)
  | fatal (db : DB) (tr : List Event)
  deriving DecidableEq

/-- The gateway event corresponding to the money-movement call dispatched
for a transaction type. -/
def moneyEvent (ty : Nat) : Event :=
  if ty = TYPE_CHARGE then .charge
  else if ty = TYPE_PAYOUT then .payout
  else .refund

def finishMoney : GwResult String → DB → List Event → AttemptRes
  | .ok tid, db, tr => .success tid db tr
  | .err e, db, tr => .failure e db tr
  | .fatal, db, tr => .fatal db tr

/-- The part of the try block after the customer has a gateway identity:
prepare the customer, then dispatch charge, payout or refund according to
the transaction type.  When the type is none of the three the source never
assigns the local variable method and calling it raises an
UnboundLocalError inside the try block, absorbed like any other non-fatal
exception. -/
def afterCustomer (p : Processor) (db : DB) (t : Transaction) (c : Customer)
    (tr0 : List Event) : AttemptRes :=
  let tr1 := tr0 ++ [Event.prepareCustomer]
  match p.prepare_customer c t.payment_uri with
  | .err e => .failure e db tr1
  | .fatal => .fatal db tr1
  | .ok _ =>
    if t.transaction_type = TYPE_CHARGE then
      finishMoney (p.charge t) db (tr1 ++ [Event.charge])
    else if t.transaction_type = TYPE_PAYOUT then
      finishMoney (p.payout t) db (tr1 ++ [Event.payout])
    else if t.transaction_type = TYPE_REFUND then
      finishMoney (p.refund t) db (tr1 ++ [Event.refund])
    else
      .failure "local variable method referenced before assignment" db tr1

/-- The whole try block of process_one: when the customer has no gateway
identity yet, register it and flush the customer row immediately, before
any money movement. -/
def attemptPhase (p : Processor) (db : DB) (t : Transaction)
    (c : Customer) : AttemptRes :=
  match c.external_id with
  | none =>
    match p.create_customer c with
    | .err e => .failure e db [Event.createCustomer]
    | .fatal => .fatal db [Event.createCustomer]
    | .ok customer_id =>
      let c1 : Customer := { c with external_id := some customer_id }
      afterCustomer p (upsertCustomer db c1) t c1
        [Event.createCustomer, Event.persistCustomer]
  | some _ => afterCustomer p db t c []

/-- The row written by the except-handler of process_one: status retrying,
the failure message recorded, failure_count incremented, escalated to
failed when the new failure_count exceeds maximum_retry, updated_at set to
the time captured at entry. -/
def failedTransaction (t : Transaction) (e : String) (maximum_retry : Nat)
    (now : Nat) : Transaction :=
  let t1 : Transaction :=
    { t with status := STATUS_RETRYING
             error_message := some e
             failure_count := t.failure_count + 1 }
  -- the source condition reads: transaction.failure_count > maximum_retry
  let t2 : Transaction :=
    if maximum_retry < t1.failure_count then { t1 with status := STATUS_FAILED }
    else t1
  { t2 with updated_at := now }

/-- The row written by the success path of process_one. -/
def doneTransaction (t : Transaction) (tid : String) (now2 : Nat) :
    Transaction :=
  { t with external_id := some tid, status := STATUS_DONE, updated_at := now2 }

/-- How one process_one call ends for its caller: a normal return, a
ValueError for a finished transaction, an AttributeError when the
subscription or customer row of the transaction cannot be resolved
(raised outside the try block, hence propagated), or a re-raised fatal
signal. -/
inductive PRes where
  | ok
  | invalidArg
  | attrError
  | fatal
  deriving DecidableEq

/-- TransactionModel.process_one.  now is the timestamp captured at entry
(used by the failure path), now2 the one taken on the success path. -/
def process_one (p : Processor) (db : DB) (transaction : Transaction)
    (maximum_retry : Nat) (now : Nat) (now2 : Nat) : PRes × DB × List Event :=
  if transaction.status = STATUS_DONE then (.invalidArg, db, [])
  else
    match resolveCustomer db transaction with
    | none => (.attrError, db, [])
    | some customer =>
      match attemptPhase p db transaction customer with
      | .failure e db1 tr =>
        (.ok, upsertTransaction db1 (failedTransaction transaction e maximum_retry now), tr)
      | .fatal db1 tr => (.fatal, db1, tr)
      | .success tid db1 tr =>
        (.ok, upsertTransaction db1 (doneTransaction transaction tid now2), tr)

/-- The eligibility filter of process_transactions: status in
(STATUS_INIT, STATUS_RETRYING), narrowed to the given guid set when one is
supplied. -/
def eligibleTx (guids : Option (List String)) (t : Transaction) : Bool :=
  (t.status == STATUS_INIT || t.status == STATUS_RETRYING) &&
    (match guids with
     | none => true
     | some gs => gs.contains t.guid)

/-- The rows selected by the batch query, in stored order: the source
query carries no order_by clause, so no sort is applied on top of the
stored sequence. -/
def selectEligible (db : DB) (guids : Option (List String)) :
    List Transaction :=
  db.transactions.filter (eligibleTx guids)

/-- How a process_transactions call ends: the list of processed guids, or
an abort by a propagated non-fatal exception, or an abort by a fatal
signal. -/
inductive BatchRes where
  | done (guids : List String)
  | errorAbort
  | fatalAbort
  deriving DecidableEq

/-- The loop of process_transactions: process each selected row, appending
its guid to the result after the row is processed; any exception
propagating out of process_one aborts the loop and discards the
accumulated list.  The index i counts processed rows so that the times
function can supply the timestamps of the i-th process_one call. -/
def runBatch (p : Processor) (maximum_retry : Nat) (times : Nat → Nat × Nat) :
    Nat → DB → List Transaction → BatchRes × DB
  | _, db, [] => (.done [], db)
  | i, db, t :: rest =>
    let r := process_one p db t maximum_retry (times i).1 (times i).2
    match r.1 with
    | .ok =>
      match runBatch p maximum_retry times (i + 1) r.2.1 rest with
      | (.done gs, db') => (.done (t.guid :: gs), db')
      | other => other
    | .invalidArg => (.errorAbort, r.2.1)
    | .attrError => (.errorAbort, r.2.1)
    | .fatal => (.fatalAbort, r.2.1)

/-- TransactionModel.process_transactions. -/
def process_transactions (p : Processor) (db : DB)
    (guids : Option (List String)) (maximum_retry : Nat)
    (times : Nat → Nat × Nat) : BatchRes × DB :=
  runBatch p maximum_retry times 0 db (selectEligible db guids)

/-- The store carried by an attempt result. -/
def attemptDB : AttemptRes → DB
  | .success _ db _ => db
  | .failure _ db _ => db
  | .fatal db _ => db

/-- The refund-shape invariant that actually holds of the engine: whenever
refund_to_guid is set, the transaction is a refund, carries no payment_uri,
and its target is a stored charge.  (The stronger claim, that every refund
has these properties, fails: create accepts a refund without a
refund_to_guid and with a payment_uri.) -/
def RefundInv (db : DB) : Prop :=
  ∀ t ∈ db.transactions, ∀ rg, t.refund_to_guid = some rg →
    t.transaction_type = TYPE_REFUND ∧ t.payment_uri = none ∧
    ∃ tgt ∈ db.transactions, tgt.guid = rg ∧
      tgt.transaction_type = TYPE_CHARGE

/-- The error_message invariant that actually holds of the engine: a
recorded error message implies at least one failed attempt.  (The stronger
claim, that error_message is absent outside STATUS_RETRYING and
STATUS_FAILED, fails: a later success or a manual status update does not
clear it.) -/
def ErrorMessageInv (db : DB) : Prop :=
  ∀ t ∈ db.transactions, t.error_message.isSome → 1 ≤ t.failure_count

/-! Concrete rows, stores and processors used to instantiate the theorems
at evaluable inputs. -/

def sampleCustomer : Customer := { guid := "CU1", external_id := some "EX1" }

def freshCustomer : Customer := { guid := "CU1", external_id := none }

def sampleSubscription : Subscription :=
  { guid := "SU1", customer_guid := "CU1" }

def sampleTx (g : String) (created : Nat) : Transaction :=
  { guid := g
    subscription_guid := "SU1"
    transaction_type := TYPE_CHARGE
    amount := 1000
    payment_uri := some "/v1/cards/tester"
    status := STATUS_INIT
    scheduled_at := 0
    refund_to_guid := none
    created_at := created
    updated_at := created }

/-- A gateway on which every call returns. -/
def okProcessor : Processor :=
  { create_customer := fun _ => .ok "MSBILLYC"
    prepare_customer := fun _ _ => .ok ()
    charge := fun _ => .ok "MSBILLYT"
    payout := fun _ => .ok "MSBILLYT"
    refund := fun _ => .ok "MSBILLYT" }

/-- A gateway on which every money movement raises a non-fatal error. -/
def failProcessor : Processor :=
  { create_customer := fun _ => .ok "MSBILLYC"
    prepare_customer := fun _ _ => .ok ()
    charge := fun _ => .err "boom"
    payout := fun _ => .err "boom"
    refund := fun _ => .err "boom" }

/-- A gateway on which every money movement raises a fatal signal. -/
def fatalProcessor : Processor :=
  { create_customer := fun _ => .ok "MSBILLYC"
    prepare_customer := fun _ _ => .ok ()
    charge := fun _ => .fatal
    payout := fun _ => .fatal
    refund := fun _ => .fatal }

def sampleDB : DB :=
  { transactions := [sampleTx "TXA" 1]
    subscriptions := [sampleSubscription]
    customers := [sampleCustomer] }

/-- Like sampleDB but the customer has no gateway identity yet. -/
def freshDB : DB :=
  { transactions := [sampleTx "TXA" 1]
    subscriptions := [sampleSubscription]
    customers := [freshCustomer] }

/-- Three eligible rows whose stored order (TXb, TXa, TXc) is sorted
neither by creation time (1, 2, 3 would give TXa, TXb, TXc) nor by guid in
either direction. -/
def orderDB : DB :=
  { transactions := [sampleTx "TXb" 2, sampleTx "TXa" 1, sampleTx "TXc" 3]
    subscriptions := [sampleSubscription]
    customers := [sampleCustomer] }

def emptyDB : DB := { transactions := [], subscriptions := [], customers := [] }

/-- The store after one failing attempt on TXA. -/
def failedOnceDB : DB :=
  (process_one failProcessor sampleDB (sampleTx "TXA" 1) 10 5 6).2.1

/-- The row TXA as stored after one failing attempt. -/
def failedOnceTx : Transaction :=
  (findTransaction failedOnceDB "TXA").getD (sampleTx "TXA" 1)

/-- The store after a failing attempt on TXA followed by a succeeding
one. -/
def thenDoneDB : DB :=
  (process_one okProcessor failedOnceDB failedOnceTx 10 7 8).2.1

/-- The row TXA with terminal success status, for exercising the Done
guard. -/
def sampleDoneTx : Transaction := { sampleTx "TXA" 1 with status := STATUS_DONE }

/-- freshDB after the customer registration flush of a successful run. -/
def freshDB1 : DB :=
  upsertCustomer freshDB { freshCustomer with external_id := some "MSBILLYC" }

/-- The event trace of a successful run that had to register the
customer. -/
def freshTrace : List Event :=
  [Event.createCustomer, Event.persistCustomer, Event.prepareCustomer,
   Event.charge]

/-- Keyword arguments for update with no field at all. -/
def emptyArgs : UpdateArgs := { status := none, extra := [] }

/-- Keyword arguments carrying an unrecognized status value. -/
def invalidStatusArgs : UpdateArgs := { status := some 9, extra := [] }

/-- Keyword arguments carrying an attribute outside the allow-list. -/
def badFieldArgs : UpdateArgs :=
  { status := some STATUS_CANCELED, extra := ["amount"] }

/-- Keyword arguments for a manual cancellation. -/
def cancelArgs : UpdateArgs := { status := some STATUS_CANCELED, extra := [] }

/-! Lemmas about fetch and flush on lists of keyed rows. -/

theorem findBy_key {key : α → String} {g : String} {l : List α} {x : α}
    (h : findBy key g l = some x) : key x = g := by
  induction l with
  | nil => simp [findBy] at h
  | cons z zs ih =>
    by_cases hz : key z = g
    · simp [findBy, hz] at h
      subst h; exact hz
    · simp [findBy, hz] at h
      exact ih h

theorem findBy_mem {key : α → String} {g : String} {l : List α} {x : α}
    (h : findBy key g l = some x) : x ∈ l := by
  induction l with
  | nil => simp [findBy] at h
  | cons z zs ih =>
    by_cases hz : key z = g
    · simp [findBy, hz] at h
      subst h; exact List.mem_cons_self _ _
    · simp [findBy, hz] at h
      exact List.mem_cons_of_mem _ (ih h)

theorem findBy_replaceBy_self (key : α → String) (y : α) (l : List α) :
    findBy key (key y) (replaceBy key y l) = some y := by
  induction l with
  | nil => simp [replaceBy, findBy]
  | cons z zs ih =>
    by_cases hz : key z = key y
    · simp [replaceBy, hz, findBy]
    · simp [replaceBy, hz, findBy, ih]

theorem findBy_replaceBy_ne (key : α → String) (y : α) {g : String}
    (l : List α) (h : g ≠ key y) :
    findBy key g (replaceBy key y l) = findBy key g l := by
  have hyg : ¬ key y = g := fun hh => h hh.symm
  induction l with
  | nil => simp [replaceBy, findBy, hyg]
  | cons z zs ih =>
    by_cases hz : key z = key y
    · have hzg : ¬ key z = g := fun hh => h (hh.symm.trans hz)
      simp [replaceBy, hz, findBy, hyg, hzg]
    · by_cases hzg : key z = g
      · simp [replaceBy, hz, findBy, hzg, h]
      · simp [replaceBy, hz, findBy, hzg, ih]

theorem findBy_replaceBy_isSome (key : α → String) (y : α) (g : String)
    (l : List α) (h : (findBy key g l).isSome) :
    (findBy key g (replaceBy key y l)).isSome := by
  by_cases hg : g = key y
  · subst hg; rw [findBy_replaceBy_self]; rfl
  · rw [findBy_replaceBy_ne key y l hg]; exact h

theorem findBy_replaceBy_found {key : α → String} {g : String} {l : List α}
    {x : α} (y : α) (h : findBy key g l = some x) (hk : key y = key x) :
    findBy key g (replaceBy key y l) = some y := by
  induction l with
  | nil => simp [findBy] at h
  | cons z zs ih =>
    by_cases hz : key z = g
    · simp [findBy, hz] at h
      subst h
      simp [replaceBy, hk.symm, findBy, hk.trans hz]
    · simp [findBy, hz] at h
      have hxg : key x = g := findBy_key h
      have hzy : ¬ key z = key y := fun hh => hz ((hh.trans hk).trans hxg)
      simp [replaceBy, hzy, findBy, hz, ih h]

theorem replaceBy_eq_of_findBy {key : α → String} {l : List α} {x : α}
    (y : α) (h : findBy key (key y) l = some x) :
    ∃ l1 l2, l = l1 ++ x :: l2 ∧ replaceBy key y l = l1 ++ y :: l2 := by
  induction l with
  | nil => simp [findBy] at h
  | cons z zs ih =>
    by_cases hz : key z = key y
    · simp [findBy, hz] at h
      subst h
      exact ⟨[], zs, by simp, by simp [replaceBy, hz]⟩
    · simp [findBy, hz] at h
      obtain ⟨l1, l2, h1, h2⟩ := ih h
      exact ⟨z :: l1, l2, by simp [h1], by simp [replaceBy, hz, h2]⟩

theorem findBy_of_mem_nodup {key : α → String} {l : List α} {t : α}
    (ht : t ∈ l) (hnd : (l.map key).Nodup) : findBy key (key t) l = some t := by
  induction l with
  | nil => simp at ht
  | cons z zs ih =>
    rcases List.mem_cons.mp ht with h | h
    · subst h; simp [findBy]
    · by_cases hz : key z = key t
      · exfalso
        have : key t ∈ zs.map key := List.mem_map_of_mem key h
        rw [List.map_cons, List.nodup_cons] at hnd
        exact hnd.1 (hz ▸ this)
      · rw [List.map_cons, List.nodup_cons] at hnd
        simp [findBy, hz, ih h hnd.2]

theorem map_key_replaceBy {key : α → String} {l : List α} {x : α} (y : α)
    (h : findBy key (key y) l = some x) :
    (replaceBy key y l).map key = l.map key := by
  obtain ⟨l1, l2, h1, h2⟩ := replaceBy_eq_of_findBy y h
  have hk : key x = key y := findBy_key h
  rw [h2, h1]
  simp [hk]

/-! Structural lemmas about the try block and process_one. -/

theorem finishMoney_db (r : GwResult String) (db : DB) (tr : List Event) :
    attemptDB (finishMoney r db tr) = db := by
  cases r <;> rfl

theorem afterCustomer_db (p : Processor) (db : DB) (t : Transaction)
    (c : Customer) (tr0 : List Event) :
    attemptDB (afterCustomer p db t c tr0) = db := by
  unfold afterCustomer
  cases p.prepare_customer c t.payment_uri with
  | err e => rfl
  | fatal => rfl
  | ok u =>
    dsimp only
    split_ifs <;> first | apply finishMoney_db | rfl

theorem attemptPhase_db (p : Processor) (db : DB) (t : Transaction)
    (c : Customer) :
    attemptDB (attemptPhase p db t c) = db ∨
    ∃ c1 : Customer, c1.guid = c.guid ∧
      attemptDB (attemptPhase p db t c) = upsertCustomer db c1 := by
  unfold attemptPhase
  cases c.external_id with
  | some x => exact Or.inl (afterCustomer_db p db t c [])
  | none =>
    cases p.create_customer c with
    | err e => exact Or.inl rfl
    | fatal => exact Or.inl rfl
    | ok cid =>
      exact Or.inr ⟨{ c with external_id := some cid }, rfl,
        afterCustomer_db p (upsertCustomer db { c with external_id := some cid })
          t { c with external_id := some cid }
          [Event.createCustomer, Event.persistCustomer]⟩

theorem attemptDB_transactions (p : Processor) (db : DB) (t : Transaction)
    (c : Customer) :
    (attemptDB (attemptPhase p db t c)).transactions = db.transactions := by
  rcases attemptPhase_db p db t c with h | ⟨c1, _, h⟩ <;>
    simp [h, upsertCustomer]

theorem attemptDB_subscriptions (p : Processor) (db : DB) (t : Transaction)
    (c : Customer) :
    (attemptDB (attemptPhase p db t c)).subscriptions = db.subscriptions := by
  rcases attemptPhase_db p db t c with h | ⟨c1, _, h⟩ <;>
    simp [h, upsertCustomer]

theorem attemptDB_findCustomer (p : Processor) (db : DB) (t : Transaction)
    (c : Customer) (g : String) (h : (findCustomer db g).isSome) :
    (findCustomer (attemptDB (attemptPhase p db t c)) g).isSome := by
  rcases attemptPhase_db p db t c with hh | ⟨c1, _, hh⟩
  · rw [hh]; exact h
  · rw [hh]
    have h' : (findBy (fun x : Customer => x.guid) g db.customers).isSome := h
    exact findBy_replaceBy_isSome (fun x : Customer => x.guid) c1 g
      db.customers h'

theorem resolveCustomer_isSome_of {db db' : DB}
    (hs : db'.subscriptions = db.subscriptions)
    (hc : ∀ g, (findCustomer db g).isSome → (findCustomer db' g).isSome)
    (t : Transaction) (h : (resolveCustomer db t).isSome) :
    (resolveCustomer db' t).isSome := by
  unfold resolveCustomer findSubscription at h ⊢
  rw [hs]
  cases hfs : findBy (fun s => s.guid) t.subscription_guid db.subscriptions with
  | none => rw [hfs] at h; simp at h
  | some s => rw [hfs] at h; exact hc _ h

/-- Whatever process_one does, the store it returns is the entry store with
possibly a customer row flushed (mid) and possibly the one transaction row
flushed on top, the latter being either the except-handler row or the
success row for the processed transaction. -/
theorem process_one_db_shape (p : Processor) (db : DB) (t : Transaction)
    (mr n1 n2 : Nat) :
    ∃ mid : DB, mid.transactions = db.transactions ∧
      mid.subscriptions = db.subscriptions ∧
      (∀ g, (findCustomer db g).isSome → (findCustomer mid g).isSome) ∧
      ((process_one p db t mr n1 n2).2.1 = mid ∨
       (∃ e, (process_one p db t mr n1 n2).2.1 =
          upsertTransaction mid (failedTransaction t e mr n1)) ∨
       (∃ tid, (process_one p db t mr n1 n2).2.1 =
          upsertTransaction mid (doneTransaction t tid n2))) := by
  unfold process_one
  by_cases hst : t.status = STATUS_DONE
  · exact ⟨db, rfl, rfl, fun g h => h, by simp [hst]⟩
  · rw [if_neg hst]
    cases hrc : resolveCustomer db t with
    | none => exact ⟨db, rfl, rfl, fun g h => h, Or.inl rfl⟩
    | some c =>
      have h1 := attemptDB_transactions p db t c
      have h2 := attemptDB_subscriptions p db t c
      have h3 := fun g => attemptDB_findCustomer p db t c g
      cases hA : attemptPhase p db t c with
      | failure e db1 tr =>
        rw [hA] at h1 h2 h3
        exact ⟨db1, h1, h2, h3, Or.inr (Or.inl ⟨e, by dsimp only; rw [hA]⟩)⟩
      | fatal db1 tr =>
        rw [hA] at h1 h2 h3
        exact ⟨db1, h1, h2, h3, Or.inl (by dsimp only; rw [hA])⟩
      | success tid db1 tr =>
        rw [hA] at h1 h2 h3
        exact ⟨db1, h1, h2, h3, Or.inr (Or.inr ⟨tid, by dsimp only; rw [hA]⟩)⟩

theorem process_one_subscriptions (p : Processor) (db : DB) (t : Transaction)
    (mr n1 n2 : Nat) :
    (process_one p db t mr n1 n2).2.1.subscriptions = db.subscriptions := by
  obtain ⟨mid, _, hs, _, hcase⟩ := process_one_db_shape p db t mr n1 n2
  rcases hcase with h | ⟨e, h⟩ | ⟨tid, h⟩ <;> rw [h] <;> exact hs

theorem process_one_findCustomer (p : Processor) (db : DB) (t : Transaction)
    (mr n1 n2 : Nat) (g : String) (h : (findCustomer db g).isSome) :
    (findCustomer (process_one p db t mr n1 n2).2.1 g).isSome := by
  obtain ⟨mid, _, _, hc, hcase⟩ := process_one_db_shape p db t mr n1 n2
  rcases hcase with hh | ⟨e, hh⟩ | ⟨tid, hh⟩ <;> rw [hh] <;> exact hc g h

theorem process_one_resolve (p : Processor) (db : DB) (t : Transaction)
    (mr n1 n2 : Nat) (t' : Transaction)
    (h : (resolveCustomer db t').isSome) :
    (resolveCustomer (process_one p db t mr n1 n2).2.1 t').isSome :=
  resolveCustomer_isSome_of (process_one_subscriptions p db t mr n1 n2)
    (fun g => process_one_findCustomer p db t mr n1 n2 g) t' h

theorem process_one_transactions_shape (p : Processor) (db : DB)
    (t : Transaction) (mr n1 n2 : Nat) :
    (process_one p db t mr n1 n2).2.1.transactions = db.transactions ∨
    (∃ e, (process_one p db t mr n1 n2).2.1.transactions =
       replaceBy (fun x => x.guid) (failedTransaction t e mr n1)
         db.transactions) ∨
    (∃ tid, (process_one p db t mr n1 n2).2.1.transactions =
       replaceBy (fun x => x.guid) (doneTransaction t tid n2)
         db.transactions) := by
  obtain ⟨mid, hts, _, _, hcase⟩ := process_one_db_shape p db t mr n1 n2
  rcases hcase with h | ⟨e, h⟩ | ⟨tid, h⟩
  · exact Or.inl (by rw [h, hts])
  · exact Or.inr (Or.inl ⟨e, by rw [h]; show replaceBy _ _ mid.transactions = _; rw [hts]⟩)
  · exact Or.inr (Or.inr ⟨tid, by rw [h]; show replaceBy _ _ mid.transactions = _; rw [hts]⟩)

/-! Field lemmas about the two rows process_one flushes. -/

theorem failedTransaction_guid (t : Transaction) (e : String) (mr n : Nat) :
    (failedTransaction t e mr n).guid = t.guid := by
  unfold failedTransaction; dsimp only; split <;> rfl

theorem failedTransaction_type (t : Transaction) (e : String) (mr n : Nat) :
    (failedTransaction t e mr n).transaction_type = t.transaction_type := by
  unfold failedTransaction; dsimp only; split <;> rfl

theorem failedTransaction_refund (t : Transaction) (e : String) (mr n : Nat) :
    (failedTransaction t e mr n).refund_to_guid = t.refund_to_guid := by
  unfold failedTransaction; dsimp only; split <;> rfl

theorem failedTransaction_payment (t : Transaction) (e : String) (mr n : Nat) :
    (failedTransaction t e mr n).payment_uri = t.payment_uri := by
  unfold failedTransaction; dsimp only; split <;> rfl

theorem failedTransaction_error (t : Transaction) (e : String) (mr n : Nat) :
    (failedTransaction t e mr n).error_message = some e := by
  unfold failedTransaction; dsimp only; split <;> rfl

theorem failedTransaction_count (t : Transaction) (e : String) (mr n : Nat) :
    (failedTransaction t e mr n).failure_count = t.failure_count + 1 := by
  unfold failedTransaction; dsimp only; split <;> rfl

theorem failedTransaction_status (t : Transaction) (e : String) (mr n : Nat) :
    (failedTransaction t e mr n).status =
      if t.failure_count + 1 ≤ mr then STATUS_RETRYING else STATUS_FAILED := by
  unfold failedTransaction
  dsimp only
  by_cases h : mr < t.failure_count + 1
  · rw [if_pos h, if_neg (by omega)]
  · rw [if_neg h, if_pos (by omega)]

theorem process_one_find_ne (p : Processor) (db : DB) (t : Transaction)
    (mr n1 n2 : Nat) {g : String} (hg : g ≠ t.guid) :
    findTransaction (process_one p db t mr n1 n2).2.1 g =
      findTransaction db g := by
  rcases process_one_transactions_shape p db t mr n1 n2 with
    h | ⟨e, h⟩ | ⟨tid, h⟩
  · unfold findTransaction; rw [h]
  · unfold findTransaction
    rw [h]
    have hne : g ≠ (failedTransaction t e mr n1).guid := by
      rw [failedTransaction_guid]; exact hg
    exact findBy_replaceBy_ne (fun x : Transaction => x.guid)
      (failedTransaction t e mr n1) db.transactions hne
  · unfold findTransaction
    rw [h]
    exact findBy_replaceBy_ne (fun x : Transaction => x.guid)
      (doneTransaction t tid n2) db.transactions hg

theorem findTransaction_upsert (db : DB) (t : Transaction) :
    findTransaction (upsertTransaction db t) t.guid = some t :=
  findBy_replaceBy_self (fun x : Transaction => x.guid) t db.transactions

theorem findTransaction_upsert_of (db : DB) (t : Transaction) (g : String)
    (hg : t.guid = g) : findTransaction (upsertTransaction db t) g = some t :=
  hg ▸ findTransaction_upsert db t

/-! Equations fixing process_one on each shape of the attempt result. -/

theorem process_one_eq_failure (p : Processor) (db db1 : DB)
    (t : Transaction) (c : Customer) (mr now now2 : Nat) (e : String)
    (tr : List Event) (hstat : t.status ≠ STATUS_DONE)
    (hres : resolveCustomer db t = some c)
    (hfail : attemptPhase p db t c = .failure e db1 tr) :
    process_one p db t mr now now2 =
      (.ok, upsertTransaction db1 (failedTransaction t e mr now), tr) := by
  unfold process_one
  rw [if_neg hstat, hres]
  dsimp only
  rw [hfail]

theorem process_one_eq_fatal (p : Processor) (db db1 : DB)
    (t : Transaction) (c : Customer) (mr now now2 : Nat)
    (tr : List Event) (hstat : t.status ≠ STATUS_DONE)
    (hres : resolveCustomer db t = some c)
    (hfatal : attemptPhase p db t c = .fatal db1 tr) :
    process_one p db t mr now now2 = (.fatal, db1, tr) := by
  unfold process_one
  rw [if_neg hstat, hres]
  dsimp only
  rw [hfatal]

theorem process_one_eq_success (p : Processor) (db db1 : DB)
    (t : Transaction) (c : Customer) (mr now now2 : Nat) (tid : String)
    (tr : List Event) (hstat : t.status ≠ STATUS_DONE)
    (hres : resolveCustomer db t = some c)
    (hsucc : attemptPhase p db t c = .success tid db1 tr) :
    process_one p db t mr now now2 =
      (.ok, upsertTransaction db1 (doneTransaction t tid now2), tr) := by
  unfold process_one
  rw [if_neg hstat, hres]
  dsimp only
  rw [hsucc]

/-! Lemmas pinning down the try block on a success. -/

theorem afterCustomer_success (p : Processor) (db : DB) (t : Transaction)
    (c : Customer) (tr0 : List Event) (tid : String) (db1 : DB)
    (tr : List Event)
    (h : afterCustomer p db t c tr0 = .success tid db1 tr) :
    db1 = db ∧
    tr = tr0 ++ [Event.prepareCustomer, moneyEvent t.transaction_type] := by
  unfold afterCustomer at h
  cases hp : p.prepare_customer c t.payment_uri with
  | err e => rw [hp] at h; exact absurd h (by simp)
  | fatal => rw [hp] at h; exact absurd h (by simp)
  | ok u =>
    rw [hp] at h
    dsimp only at h
    by_cases h0 : t.transaction_type = TYPE_CHARGE
    · rw [if_pos h0] at h
      cases hc : p.charge t with
      | ok val =>
        rw [hc] at h
        simp only [finishMoney, AttemptRes.success.injEq] at h
        obtain ⟨h1, h2, h3⟩ := h
        refine ⟨h2.symm, ?_⟩
        rw [← h3]
        simp [moneyEvent, h0]
      | err e => rw [hc] at h; exact absurd h (by simp [finishMoney])
      | fatal => rw [hc] at h; exact absurd h (by simp [finishMoney])
    · rw [if_neg h0] at h
      by_cases h1 : t.transaction_type = TYPE_PAYOUT
      · rw [if_pos h1] at h
        cases hc : p.payout t with
        | ok val =>
          rw [hc] at h
          simp only [finishMoney, AttemptRes.success.injEq] at h
          obtain ⟨ha, hb, hd⟩ := h
          refine ⟨hb.symm, ?_⟩
          rw [← hd]
          simp [moneyEvent, h1, TYPE_PAYOUT, TYPE_CHARGE]
        | err e => rw [hc] at h; exact absurd h (by simp [finishMoney])
        | fatal => rw [hc] at h; exact absurd h (by simp [finishMoney])
      · rw [if_neg h1] at h
        by_cases h2 : t.transaction_type = TYPE_REFUND
        · rw [if_pos h2] at h
          cases hc : p.refund t with
          | ok val =>
            rw [hc] at h
            simp only [finishMoney, AttemptRes.success.injEq] at h
            obtain ⟨ha, hb, hd⟩ := h
            refine ⟨hb.symm, ?_⟩
            rw [← hd]
            simp [moneyEvent, h2, TYPE_REFUND, TYPE_CHARGE, TYPE_PAYOUT]
          | err e => rw [hc] at h; exact absurd h (by simp [finishMoney])
          | fatal => rw [hc] at h; exact absurd h (by simp [finishMoney])
        · rw [if_neg h2] at h
          exact absurd h (by simp)

theorem attemptPhase_success (p : Processor) (db : DB) (t : Transaction)
    (c : Customer) (tid : String) (db1 : DB) (tr : List Event)
    (h : attemptPhase p db t c = .success tid db1 tr) :
    (c.external_id = none →
      ∃ cid, p.create_customer c = .ok cid ∧
        db1 = upsertCustomer db { c with external_id := some cid } ∧
        tr = [Event.createCustomer, Event.persistCustomer,
              Event.prepareCustomer, moneyEvent t.transaction_type]) ∧
    (∀ x, c.external_id = some x →
      db1 = db ∧
      tr = [Event.prepareCustomer, moneyEvent t.transaction_type]) := by
  unfold attemptPhase at h
  cases hext : c.external_id with
  | none =>
    rw [hext] at h
    dsimp only at h
    cases hcc : p.create_customer c with
    | err e => rw [hcc] at h; exact absurd h (by simp)
    | fatal => rw [hcc] at h; exact absurd h (by simp)
    | ok cid =>
      rw [hcc] at h
      dsimp only at h
      obtain ⟨hdb, htr⟩ := afterCustomer_success p
        (upsertCustomer db { c with external_id := some cid }) t
        { c with external_id := some cid }
        [Event.createCustomer, Event.persistCustomer] tid db1 tr h
      refine ⟨fun _ => ⟨cid, rfl, hdb, by simp [htr]⟩, fun x hx => ?_⟩
      cases hx
  | some x0 =>
    rw [hext] at h
    dsimp only at h
    obtain ⟨hdb, htr⟩ := afterCustomer_success p db t c [] tid db1 tr h
    refine ⟨fun hn => ?_, fun x hx => ⟨hdb, by simp [htr]⟩⟩
    cases hn

theorem resolveCustomer_upsertCustomer (db : DB) (t : Transaction)
    (c c1 : Customer) (hres : resolveCustomer db t = some c)
    (hg : c1.guid = c.guid) :
    resolveCustomer (upsertCustomer db c1) t = some c1 := by
  unfold resolveCustomer findSubscription findCustomer at hres ⊢
  unfold upsertCustomer
  dsimp only at hres ⊢
  cases hfs : findBy (fun s => s.guid) t.subscription_guid
      db.subscriptions with
  | none =>
    rw [hfs] at hres
    simp at hres
  | some s =>
    rw [hfs] at hres
    dsimp only at hres ⊢
    exact findBy_replaceBy_found c1 hres hg

/-! The claims. -/

/-- C1: on a transaction whose status is not Done, when the gateway attempt
fails with a non-fatal exception, process_one returns normally and the
stored row's failure_count becomes its old value plus one, with status
STATUS_RETRYING when the new failure_count is at most maximum_retry and
STATUS_FAILED when it strictly exceeds maximum_retry (so with
maximum_retry = N the row stays Retrying at failure_count = N and becomes
Failed exactly at failure_count = N + 1). -/
theorem process_one_failure_escalation (p : Processor) (db db1 : DB)
    (t : Transaction) (c : Customer) (mr now now2 : Nat) (e : String)
    (tr : List Event) (hstat : t.status ≠ STATUS_DONE)
    (hres : resolveCustomer db t = some c)
    (hfail : attemptPhase p db t c = .failure e db1 tr) :
    (process_one p db t mr now now2).1 = .ok ∧
    findTransaction (process_one p db t mr now now2).2.1 t.guid =
      some (failedTransaction t e mr now) ∧
    (failedTransaction t e mr now).failure_count = t.failure_count + 1 ∧
    (failedTransaction t e mr now).status =
      (if t.failure_count + 1 ≤ mr then STATUS_RETRYING
       else STATUS_FAILED) := by
  have hpo := process_one_eq_failure p db db1 t c mr now now2 e tr hstat
    hres hfail
  refine ⟨by rw [hpo], ?_, failedTransaction_count t e mr now,
    failedTransaction_status t e mr now⟩
  rw [hpo]
  exact findTransaction_upsert_of db1 _ _ (failedTransaction_guid t e mr now)

/-- C1 witness: concrete failing run with maximum_retry = 10 on a fresh
charge: the row ends Retrying with failure_count 1. -/
theorem process_one_failure_escalation_witness :
    (sampleTx "TXA" 1).status ≠ STATUS_DONE ∧
    resolveCustomer sampleDB (sampleTx "TXA" 1) = some sampleCustomer ∧
    attemptPhase failProcessor sampleDB (sampleTx "TXA" 1) sampleCustomer =
      .failure "boom" sampleDB [Event.prepareCustomer, Event.charge] ∧
    ((process_one failProcessor sampleDB (sampleTx "TXA" 1) 10 5 6).1 =
        .ok ∧
     findTransaction
         (process_one failProcessor sampleDB (sampleTx "TXA" 1) 10 5 6).2.1
         (sampleTx "TXA" 1).guid =
       some (failedTransaction (sampleTx "TXA" 1) "boom" 10 5) ∧
     (failedTransaction (sampleTx "TXA" 1) "boom" 10 5).failure_count =
       (sampleTx "TXA" 1).failure_count + 1 ∧
     (failedTransaction (sampleTx "TXA" 1) "boom" 10 5).status =
       (if (sampleTx "TXA" 1).failure_count + 1 ≤ 10 then STATUS_RETRYING
        else STATUS_FAILED)) :=
  ⟨by decide, by decide, by decide,
   process_one_failure_escalation failProcessor sampleDB sampleDB
     (sampleTx "TXA" 1) sampleCustomer 10 5 6 "boom"
     [Event.prepareCustomer, Event.charge]
     (by decide) (by decide) (by decide)⟩

/-- C2: process_one raises the InvalidArgument-class ValueError if and only
if the transaction's status is Done, and in that case it makes no gateway
call (empty event trace) and leaves the store unchanged; a transaction in
any other status is not rejected by this precondition check. -/
theorem process_one_done_guard (p : Processor) (db : DB) (t : Transaction)
    (mr now now2 : Nat) :
    ((process_one p db t mr now now2).1 = .invalidArg ↔
      t.status = STATUS_DONE) ∧
    (t.status = STATUS_DONE →
      process_one p db t mr now now2 = (.invalidArg, db, [])) := by
  by_cases hst : t.status = STATUS_DONE
  · have heq : process_one p db t mr now now2 = (.invalidArg, db, []) := by
      unfold process_one; rw [if_pos hst]
    exact ⟨⟨fun _ => hst, fun _ => by rw [heq]⟩, fun _ => heq⟩
  · refine ⟨⟨fun h => ?_, fun h => absurd h hst⟩, fun h => absurd h hst⟩
    exfalso
    unfold process_one at h
    rw [if_neg hst] at h
    cases hrc : resolveCustomer db t with
    | none => rw [hrc] at h; simp at h
    | some c =>
      rw [hrc] at h
      dsimp only at h
      cases hA : attemptPhase p db t c <;> rw [hA] at h <;> simp at h

/-- C2 witness: a concrete Done transaction is rejected with the store
untouched and no gateway events; the same row with status Init is not
rejected. -/
theorem process_one_done_guard_witness :
    process_one okProcessor sampleDB sampleDoneTx 10 0 0 =
      (.invalidArg, sampleDB, []) ∧
    ¬ (process_one okProcessor sampleDB (sampleTx "TXA" 1) 10 0 0).1 =
        .invalidArg :=
  ⟨(process_one_done_guard okProcessor sampleDB sampleDoneTx 10 0 0).2 rfl,
   fun h => absurd
     ((process_one_done_guard okProcessor sampleDB (sampleTx "TXA" 1)
        10 0 0).1.mp h)
     (by decide)⟩

/-- C3: every non-fatal gateway failure is absorbed: process_one returns
normally with the failure's description recorded in error_message, the
failure_count incremented, the status Retrying or Failed, and the row
flushed; a fatal signal is re-raised with no transaction row written. -/
theorem process_one_absorbs_nonfatal (p : Processor) (db : DB)
    (t : Transaction) (c : Customer) (mr now now2 : Nat)
    (hstat : t.status ≠ STATUS_DONE)
    (hres : resolveCustomer db t = some c) :
    (∀ e db1 tr, attemptPhase p db t c = .failure e db1 tr →
      (process_one p db t mr now now2).1 = .ok ∧
      findTransaction (process_one p db t mr now now2).2.1 t.guid =
        some (failedTransaction t e mr now) ∧
      (failedTransaction t e mr now).error_message = some e ∧
      (failedTransaction t e mr now).failure_count = t.failure_count + 1 ∧
      ((failedTransaction t e mr now).status = STATUS_RETRYING ∨
       (failedTransaction t e mr now).status = STATUS_FAILED)) ∧
    (∀ db1 tr, attemptPhase p db t c = .fatal db1 tr →
      (process_one p db t mr now now2).1 = .fatal ∧
      findTransaction (process_one p db t mr now now2).2.1 t.guid =
        findTransaction db t.guid) := by
  constructor
  · intro e db1 tr hfail
    have hpo := process_one_eq_failure p db db1 t c mr now now2 e tr hstat
      hres hfail
    refine ⟨by rw [hpo], ?_, failedTransaction_error t e mr now,
      failedTransaction_count t e mr now, ?_⟩
    · rw [hpo]
      exact findTransaction_upsert_of db1 _ _
        (failedTransaction_guid t e mr now)
    · rw [failedTransaction_status]
      by_cases hle : t.failure_count + 1 ≤ mr
      · left; rw [if_pos hle]
      · right; rw [if_neg hle]
  · intro db1 tr hfatal
    have hpo := process_one_eq_fatal p db db1 t c mr now now2 tr hstat
      hres hfatal
    refine ⟨by rw [hpo], ?_⟩
    rw [hpo]
    have h1 := attemptDB_transactions p db t c
    rw [hfatal] at h1
    dsimp only [attemptDB] at h1
    unfold findTransaction
    rw [show ((PRes.fatal, db1, tr) : PRes × DB × List Event).2.1.transactions
          = db1.transactions from rfl, h1]

/-- C3 witness: on a gateway whose charge raises a non-fatal error the
concrete run returns normally; on one whose charge raises a fatal signal
the run re-raises and the stored row is untouched. -/
theorem process_one_absorbs_nonfatal_witness :
    (process_one failProcessor sampleDB (sampleTx "TXA" 1) 10 5 6).1 =
      .ok ∧
    (process_one fatalProcessor sampleDB (sampleTx "TXA" 1) 10 5 6).1 =
      .fatal ∧
    findTransaction
        (process_one fatalProcessor sampleDB (sampleTx "TXA" 1) 10 5 6).2.1
        (sampleTx "TXA" 1).guid =
      findTransaction sampleDB (sampleTx "TXA" 1).guid :=
  ⟨((process_one_absorbs_nonfatal failProcessor sampleDB (sampleTx "TXA" 1)
      sampleCustomer 10 5 6 (by decide) (by decide)).1 "boom" sampleDB
      [Event.prepareCustomer, Event.charge] (by decide)).1,
   ((process_one_absorbs_nonfatal fatalProcessor sampleDB (sampleTx "TXA" 1)
      sampleCustomer 10 5 6 (by decide) (by decide)).2 sampleDB
      [Event.prepareCustomer, Event.charge] (by decide)).1,
   ((process_one_absorbs_nonfatal fatalProcessor sampleDB (sampleTx "TXA" 1)
      sampleCustomer 10 5 6 (by decide) (by decide)).2 sampleDB
      [Event.prepareCustomer, Event.charge] (by decide)).2⟩

/-- C4: on a successful run, create_customer is called exactly when the
customer's gateway identity is absent, and the returned identity is
flushed to the customer row (persistCustomer event) strictly before the
money-movement call is dispatched; afterwards the transaction row is
flushed with external_id set to the gateway-returned id, status Done and
updated_at refreshed. -/
theorem process_one_success_path (p : Processor) (db db1 : DB)
    (t : Transaction) (c : Customer) (mr now now2 : Nat) (tid : String)
    (tr : List Event) (hstat : t.status ≠ STATUS_DONE)
    (hres : resolveCustomer db t = some c)
    (hsucc : attemptPhase p db t c = .success tid db1 tr) :
    process_one p db t mr now now2 =
      (.ok, upsertTransaction db1 (doneTransaction t tid now2), tr) ∧
    findTransaction (process_one p db t mr now now2).2.1 t.guid =
      some (doneTransaction t tid now2) ∧
    (doneTransaction t tid now2).external_id = some tid ∧
    (doneTransaction t tid now2).status = STATUS_DONE ∧
    (doneTransaction t tid now2).updated_at = now2 ∧
    (c.external_id = none →
      ∃ cid, p.create_customer c = .ok cid ∧
        resolveCustomer db1 t =
          some { c with external_id := some cid } ∧
        tr = [Event.createCustomer, Event.persistCustomer,
              Event.prepareCustomer, moneyEvent t.transaction_type]) ∧
    (∀ x, c.external_id = some x →
      db1 = db ∧
      tr = [Event.prepareCustomer, moneyEvent t.transaction_type]) := by
  have hpo := process_one_eq_success p db db1 t c mr now now2 tid tr hstat
    hres hsucc
  have hmain := attemptPhase_success p db t c tid db1 tr hsucc
  refine ⟨hpo, ?_, rfl, rfl, rfl, ?_, hmain.2⟩
  · rw [hpo]
    exact findTransaction_upsert_of db1 _ _ rfl
  · intro hext
    obtain ⟨cid, hcc, hdb, htr⟩ := hmain.1 hext
    refine ⟨cid, hcc, ?_, htr⟩
    rw [hdb]
    exact resolveCustomer_upsertCustomer db t c _ hres rfl

/-- C4 witness: concrete successful run on a customer without a gateway
identity: the trace is createCustomer, persistCustomer, prepareCustomer,
charge, the registered identity is readable from the flushed store, and
the row ends Done with the returned external id. -/
theorem process_one_success_path_witness :
    (sampleTx "TXA" 1).status ≠ STATUS_DONE ∧
    resolveCustomer freshDB (sampleTx "TXA" 1) = some freshCustomer ∧
    attemptPhase okProcessor freshDB (sampleTx "TXA" 1) freshCustomer =
      .success "MSBILLYT" freshDB1 freshTrace ∧
    (process_one okProcessor freshDB (sampleTx "TXA" 1) 10 5 9 =
      (.ok, upsertTransaction freshDB1
        (doneTransaction (sampleTx "TXA" 1) "MSBILLYT" 9), freshTrace) ∧
     findTransaction
         (process_one okProcessor freshDB (sampleTx "TXA" 1) 10 5 9).2.1
         (sampleTx "TXA" 1).guid =
       some (doneTransaction (sampleTx "TXA" 1) "MSBILLYT" 9) ∧
     (doneTransaction (sampleTx "TXA" 1) "MSBILLYT" 9).external_id =
       some "MSBILLYT" ∧
     (doneTransaction (sampleTx "TXA" 1) "MSBILLYT" 9).status =
       STATUS_DONE ∧
     (doneTransaction (sampleTx "TXA" 1) "MSBILLYT" 9).updated_at = 9 ∧
     (freshCustomer.external_id = none →
       ∃ cid, okProcessor.create_customer freshCustomer = .ok cid ∧
         resolveCustomer freshDB1 (sampleTx "TXA" 1) =
           some { freshCustomer with external_id := some cid } ∧
         freshTrace = [Event.createCustomer, Event.persistCustomer,
           Event.prepareCustomer,
           moneyEvent (sampleTx "TXA" 1).transaction_type]) ∧
     (∀ x, freshCustomer.external_id = some x →
       freshDB1 = freshDB ∧
       freshTrace = [Event.prepareCustomer,
         moneyEvent (sampleTx "TXA" 1).transaction_type])) :=
  ⟨by decide, by decide, by decide,
   process_one_success_path okProcessor freshDB freshDB1 (sampleTx "TXA" 1)
     freshCustomer 10 5 9 "MSBILLYT" freshTrace
     (by decide) (by decide) (by decide)⟩

/-- C5: create validates in order — unrecognized type, refund target on a
non-refund, payment_uri alongside a refund target, missing target, target
that is not a charge — failing with the corresponding error and an
unchanged store; on success exactly one new row is appended, with status
Init, failure_count 0, both timestamps set to now, and its (prefixed)
identifier is returned. -/
theorem create_spec (db : DB) (sg : String) (ty am sa : Nat)
    (pu rg0 : Option String) (ng : String) (now : Nat) :
    (ty ∉ TYPE_ALL →
      create db sg ty am sa pu rg0 ng now =
        (.error (.invalidArgument "Invalid transaction_type"), db)) ∧
    (∀ rg, rg0 = some rg → ty ∈ TYPE_ALL → ty ≠ TYPE_REFUND →
      create db sg ty am sa pu rg0 ng now =
        (.error (.invalidArgument
          "refund_to_guid can only be set to a refund transaction"), db)) ∧
    (∀ rg u, rg0 = some rg → pu = some u → ty = TYPE_REFUND →
      create db sg ty am sa pu rg0 ng now =
        (.error (.invalidArgument
          "payment_uri cannot be set to a refund transaction"), db)) ∧
    (∀ rg, rg0 = some rg → pu = none → ty = TYPE_REFUND →
      findTransaction db rg = none →
      create db sg ty am sa pu rg0 ng now = (.error .notFound, db)) ∧
    (∀ rg rt, rg0 = some rg → pu = none → ty = TYPE_REFUND →
      findTransaction db rg = some rt →
      rt.transaction_type ≠ TYPE_CHARGE →
      create db sg ty am sa pu rg0 ng now =
        (.error (.invalidArgument
          "Only charge transaction can be refunded"), db)) ∧
    ((ty ∈ TYPE_ALL ∧
      (rg0 = none ∨
       (ty = TYPE_REFUND ∧ pu = none ∧
        ∃ rt, (∃ rg, rg0 = some rg ∧ findTransaction db rg = some rt) ∧
          rt.transaction_type = TYPE_CHARGE))) →
      ∃ tx : Transaction,
        create db sg ty am sa pu rg0 ng now =
          (.ok tx.guid,
           { db with transactions := db.transactions ++ [tx] }) ∧
        tx.guid = "TX" ++ ng ∧ tx.status = STATUS_INIT ∧
        tx.failure_count = 0 ∧ tx.created_at = now ∧ tx.updated_at = now ∧
        tx.subscription_guid = sg ∧ tx.transaction_type = ty ∧
        tx.amount = am ∧ tx.payment_uri = pu ∧
        tx.refund_to_guid = rg0) := by
  refine ⟨?_, ?_, ?_, ?_, ?_, ?_⟩
  · intro hty
    unfold create
    rw [if_neg hty]
  · intro rg hrg hin hne
    unfold create
    rw [if_pos hin, hrg]
    dsimp only
    rw [if_neg hne]
  · intro rg u hrg hpu hty
    unfold create
    rw [if_pos (by rw [hty]; decide), hrg]
    dsimp only
    rw [if_pos hty, hpu]
  · intro rg hrg hpu hty hfind
    unfold create
    rw [if_pos (by rw [hty]; decide), hrg]
    dsimp only
    rw [if_pos hty, hpu]
    dsimp only
    rw [hfind]
  · intro rg rt hrg hpu hty hfind hne
    unfold create
    rw [if_pos (by rw [hty]; decide), hrg]
    dsimp only
    rw [if_pos hty, hpu]
    dsimp only
    rw [hfind]
    dsimp only
    rw [if_neg hne]
  · rintro ⟨hin, hcase⟩
    refine ⟨{ guid := "TX" ++ ng, subscription_guid := sg,
              transaction_type := ty, amount := am, payment_uri := pu,
              status := STATUS_INIT, scheduled_at := sa,
              refund_to_guid := rg0, created_at := now,
              updated_at := now },
            ?_, rfl, rfl, rfl, rfl, rfl, rfl, rfl, rfl, rfl, rfl⟩
    unfold create
    rw [if_pos hin]
    rcases hcase with hnone | ⟨hrefund, hpu, rt, ⟨rg, hrg, hfind⟩, hcharge⟩
    · rw [hnone]
    · rw [hrg]
      dsimp only
      rw [if_pos hrefund, hpu]
      dsimp only
      rw [hfind]
      dsimp only
      rw [if_pos hcharge]

/-- C5 witness: a concrete unrecognized type (9) is rejected with the
store unchanged, and a concrete charge creation appends one Init row with
failure_count 0, both timestamps set to now and the returned prefixed
identifier. -/
theorem create_spec_witness :
    (9 ∉ TYPE_ALL ∧
     create sampleDB "SU1" 9 500 7 none none "G" 11 =
       (.error (.invalidArgument "Invalid transaction_type"), sampleDB)) ∧
    (0 ∈ TYPE_ALL ∧
     ∃ tx : Transaction,
       create sampleDB "SU1" 0 500 7 (some "/u") none "G" 11 =
         (.ok tx.guid,
          { sampleDB with
              transactions := sampleDB.transactions ++ [tx] }) ∧
       tx.guid = "TX" ++ "G" ∧ tx.status = STATUS_INIT ∧
       tx.failure_count = 0 ∧ tx.created_at = 11 ∧ tx.updated_at = 11 ∧
       tx.subscription_guid = "SU1" ∧ tx.transaction_type = 0 ∧
       tx.amount = 500 ∧ tx.payment_uri = some "/u" ∧
       tx.refund_to_guid = none) :=
  ⟨⟨by decide,
    (create_spec sampleDB "SU1" 9 500 7 none none "G" 11).1 (by decide)⟩,
   ⟨by decide,
    (create_spec sampleDB "SU1" 0 500 7 (some "/u") none "G"
      11).2.2.2.2.2 ⟨by decide, Or.inl rfl⟩⟩⟩

/-- C8: update fails with notFound when the guid resolves to no row, with
an InvalidArgument-class ValueError when the supplied status is not one of
the five recognized values, and with an InvalidArgument-class TypeError
when any unrecognized attribute is supplied; every failing call leaves the
store unchanged, and on success the row is flushed with updated_at
refreshed (and the new status when one was supplied). -/
theorem update_spec (db : DB) (g : String) (args : UpdateArgs) (now : Nat) :
    (findTransaction db g = none →
      update db g args now = (.error .notFound, db)) ∧
    (∀ t, findTransaction db g = some t →
      (∀ s, args.status = some s → s ∉ STATUS_ALL →
        update db g args now =
          (.error (.invalidArgument "Invalid status"), db)) ∧
      (args.extra ≠ [] →
        (args.status = none →
          update db g args now =
            (.error (.invalidArgument "Unknown attributes to update"),
             db)) ∧
        (∀ s, args.status = some s → s ∈ STATUS_ALL →
          update db g args now =
            (.error (.invalidArgument "Unknown attributes to update"),
             db))) ∧
      (args.extra = [] →
        (args.status = none →
          update db g args now =
            (.ok (), upsertTransaction db { t with updated_at := now })) ∧
        (∀ s, args.status = some s → s ∈ STATUS_ALL →
          update db g args now =
            (.ok (), upsertTransaction db
              { t with updated_at := now, status := s })))) := by
  constructor
  · intro hfind
    unfold update
    rw [hfind]
  · intro t hfind
    refine ⟨?_, ?_, ?_⟩
    · intro s hs hnotin
      unfold update
      rw [hfind]
      dsimp only
      rw [hs]
      dsimp only
      rw [if_neg hnotin]
    · intro hextra
      constructor
      · intro hs
        unfold update
        rw [hfind]
        dsimp only
        rw [hs]
        dsimp only
        rw [if_neg hextra]
      · intro s hs hin
        unfold update
        rw [hfind]
        dsimp only
        rw [hs]
        dsimp only
        rw [if_pos hin]
        rw [if_neg hextra]
    · intro hextra
      constructor
      · intro hs
        unfold update
        rw [hfind]
        dsimp only
        rw [hs]
        dsimp only
        rw [if_pos hextra]
      · intro s hs hin
        unfold update
        rw [hfind]
        dsimp only
        rw [hs]
        dsimp only
        rw [if_pos hin]
        rw [if_pos hextra]

/-- C8 witness: concrete calls — a missing guid gives notFound, a status
value of 9 gives the invalid-status error, an unrecognized attribute gives
the unknown-attribute error (each leaving the store unchanged), and a
valid cancellation flushes the row with the refreshed updated_at. -/
theorem update_spec_witness :
    update sampleDB "NOPE" emptyArgs 3 = (.error .notFound, sampleDB) ∧
    update sampleDB "TXA" invalidStatusArgs 3 =
      (.error (.invalidArgument "Invalid status"), sampleDB) ∧
    update sampleDB "TXA" badFieldArgs 3 =
      (.error (.invalidArgument "Unknown attributes to update"),
       sampleDB) ∧
    update sampleDB "TXA" cancelArgs 3 =
      (.ok (), upsertTransaction sampleDB
        { sampleTx "TXA" 1 with
            updated_at := 3
            status := STATUS_CANCELED }) :=
  ⟨(update_spec sampleDB "NOPE" emptyArgs 3).1 (by decide),
   ((update_spec sampleDB "TXA" invalidStatusArgs 3).2
     (sampleTx "TXA" 1) (by decide)).1 9 rfl (by decide),
   (((update_spec sampleDB "TXA" badFieldArgs 3).2 (sampleTx "TXA" 1)
     (by decide)).2.1 (by decide)).2 STATUS_CANCELED rfl (by decide),
   (((update_spec sampleDB "TXA" cancelArgs 3).2 (sampleTx "TXA" 1)
     (by decide)).2.2 rfl).2 STATUS_CANCELED rfl (by decide)⟩

theorem eligibleTx_status {guids : Option (List String)} {t : Transaction}
    (h : eligibleTx guids t = true) : t.status ≠ STATUS_DONE := by
  unfold eligibleTx at h
  simp only [Bool.and_eq_true, Bool.or_eq_true, beq_iff_eq] at h
  rcases h.1 with h1 | h1 <;> rw [h1] <;> decide

theorem process_one_ok_or_fatal (p : Processor) (db : DB) (t : Transaction)
    (mr n1 n2 : Nat) (hstat : t.status ≠ STATUS_DONE)
    (hres : (resolveCustomer db t).isSome) :
    (process_one p db t mr n1 n2).1 = .ok ∨
    (process_one p db t mr n1 n2).1 = .fatal := by
  obtain ⟨c, hc⟩ := Option.isSome_iff_exists.mp hres
  unfold process_one
  rw [if_neg hstat, hc]
  dsimp only
  cases hA : attemptPhase p db t c <;> simp

/-- The batch loop never raises a non-fatal error and, when it completes,
returns the guids of its argument rows in order, provided every row in it
passes the Done guard and resolves its customer. -/
theorem runBatch_spec (p : Processor) (mr : Nat) (times : Nat → Nat × Nat)
    (ts : List Transaction) :
    ∀ i : Nat, ∀ db : DB,
    (∀ t ∈ ts, t.status ≠ STATUS_DONE) →
    (∀ t ∈ ts, (resolveCustomer db t).isSome) →
    ((runBatch p mr times i db ts).1 ≠ .errorAbort ∧
     ∀ gs db', runBatch p mr times i db ts = (.done gs, db') →
       gs = ts.map fun t => t.guid) := by
  induction ts with
  | nil =>
    intro i db _ _
    refine ⟨by simp [runBatch], ?_⟩
    intro gs db' h
    unfold runBatch at h
    simp only [Prod.mk.injEq, BatchRes.done.injEq] at h
    simpa using h.1.symm
  | cons t rest ih =>
    intro i db hstat hres
    have hst : t.status ≠ STATUS_DONE := hstat t (by simp)
    have hrt : (resolveCustomer db t).isSome := hres t (by simp)
    obtain ⟨ih1, ih2⟩ := ih (i + 1)
      (process_one p db t mr (times i).1 (times i).2).2.1
      (fun t2 ht2 => hstat t2 (List.mem_cons_of_mem _ ht2))
      (fun t2 ht2 => process_one_resolve p db t mr (times i).1 (times i).2
        t2 (hres t2 (List.mem_cons_of_mem _ ht2)))
    unfold runBatch
    dsimp only
    rcases process_one_ok_or_fatal p db t mr (times i).1 (times i).2 hst
      hrt with hok | hfat
    · rw [hok]
      dsimp only
      cases hr2 : runBatch p mr times (i + 1)
          (process_one p db t mr (times i).1 (times i).2).2.1 rest with
      | mk br db2 =>
        rw [hr2] at ih1
        cases br with
        | done gs =>
          refine ⟨by simp, ?_⟩
          intro gs' db' h
          simp only [Prod.mk.injEq, BatchRes.done.injEq] at h
          rw [← h.1]
          rw [List.map_cons, ih2 gs db2 hr2]
        | errorAbort => exact absurd rfl ih1
        | fatalAbort =>
          refine ⟨by simp, ?_⟩
          intro gs' db' h
          simp at h
    · rw [hfat]
      dsimp only
      refine ⟨by simp, ?_⟩
      intro gs' db' h
      simp at h

/-- C6: process_transactions selects exactly the stored rows whose status
is Init or Retrying (narrowed to the supplied id set when one is given),
never fails with a non-fatal error, and — unless a fatal signal aborts the
batch — returns exactly the identifiers of the selected rows regardless of
each row's individual outcome.  The hypothesis is referential integrity:
every stored transaction resolves its subscription's customer, which the
schema's foreign keys guarantee. -/
theorem process_transactions_spec (p : Processor) (db : DB)
    (guids : Option (List String)) (mr : Nat) (times : Nat → Nat × Nat)
    (hwf : ∀ t ∈ db.transactions, (resolveCustomer db t).isSome) :
    (process_transactions p db guids mr times).1 ≠ .errorAbort ∧
    (∀ gs db',
      process_transactions p db guids mr times = (.done gs, db') →
      gs = (selectEligible db guids).map fun t => t.guid) := by
  have hsel1 : ∀ t ∈ selectEligible db guids, t.status ≠ STATUS_DONE :=
    fun t ht => eligibleTx_status (List.mem_filter.mp ht).2
  have hsel2 : ∀ t ∈ selectEligible db guids,
      (resolveCustomer db t).isSome :=
    fun t ht => hwf t (List.mem_filter.mp ht).1
  exact runBatch_spec p mr times (selectEligible db guids) 0 db hsel1 hsel2

/-- C6 witness: on a concrete store with one Init row the batch returns
exactly that row's identifier and does not raise. -/
theorem process_transactions_spec_witness :
    (∀ t ∈ sampleDB.transactions, (resolveCustomer sampleDB t).isSome) ∧
    (process_transactions okProcessor sampleDB none 10
        (fun _ => (0, 0))).1 ≠ .errorAbort ∧
    ["TXA"] = (selectEligible sampleDB none).map fun t => t.guid :=
  ⟨by decide,
   (process_transactions_spec okProcessor sampleDB none 10
     (fun _ => (0, 0)) (by decide)).1,
   (process_transactions_spec okProcessor sampleDB none 10
     (fun _ => (0, 0)) (by decide)).2 ["TXA"]
     (process_transactions okProcessor sampleDB none 10
       (fun _ => (0, 0))).2 (by decide)⟩

/-- C7 counterexample: on a store whose eligible rows are stored in the
order TXb, TXa, TXc with creation times 2, 1, 3, the batch returns the
identifiers in exactly that stored order, which is sorted neither by
creation time ascending (TXa, TXb, TXc) nor by identifier in either
direction — refuting the claim that the visiting order is sorted by
creation time ascending or by identifier. -/
theorem process_transactions_order_counterexample :
    (process_transactions okProcessor orderDB none 10
        (fun _ => (0, 0))).1 = .done ["TXb", "TXa", "TXc"] ∧
    ["TXb", "TXa", "TXc"] ≠ ["TXa", "TXb", "TXc"] ∧
    ["TXb", "TXa", "TXc"] ≠ ["TXc", "TXb", "TXa"] ∧
    (orderDB.transactions.map fun t => (t.guid, t.created_at)) =
      [("TXb", 2), ("TXa", 1), ("TXc", 3)] := by
  refine ⟨by decide, by decide, by decide, by decide⟩

/-- C7 amended: the batch visits the selected rows in the order they are
stored — the source query has no order_by clause — so for a fixed stored
sequence the visiting order is deterministic, but it is not sorted by
creation time or by identifier. -/
theorem process_transactions_stored_order (p : Processor) (db : DB)
    (guids : Option (List String)) (mr : Nat) (times : Nat → Nat × Nat)
    (hwf : ∀ t ∈ db.transactions, (resolveCustomer db t).isSome) :
    ∀ gs db',
      process_transactions p db guids mr times = (.done gs, db') →
      gs = (db.transactions.filter (eligibleTx guids)).map
        fun t => t.guid := by
  have hsel1 : ∀ t ∈ selectEligible db guids, t.status ≠ STATUS_DONE :=
    fun t ht => eligibleTx_status (List.mem_filter.mp ht).2
  have hsel2 : ∀ t ∈ selectEligible db guids,
      (resolveCustomer db t).isSome :=
    fun t ht => hwf t (List.mem_filter.mp ht).1
  exact (runBatch_spec p mr times (selectEligible db guids) 0 db hsel1
    hsel2).2

/-- C7 amended witness: the concrete stored-order run of the
counterexample store, via the amended theorem. -/
theorem process_transactions_stored_order_witness :
    (∀ t ∈ orderDB.transactions, (resolveCustomer orderDB t).isSome) ∧
    ["TXb", "TXa", "TXc"] =
      (orderDB.transactions.filter (eligibleTx none)).map
        fun t => t.guid :=
  ⟨by decide,
   process_transactions_stored_order okProcessor orderDB none 10
     (fun _ => (0, 0)) (by decide) ["TXb", "TXa", "TXc"]
     (process_transactions okProcessor orderDB none 10
       (fun _ => (0, 0))).2 (by decide)⟩

/-! Machinery for the two store invariants (refund shape, error
message). -/

theorem mem_replaceBy {key : α → String} {y u : α} {l : List α}
    (h : u ∈ replaceBy key y l) : u = y ∨ u ∈ l := by
  induction l with
  | nil => simpa [replaceBy] using h
  | cons z zs ih =>
    by_cases hz : key z = key y
    · simp only [replaceBy, if_pos hz, List.mem_cons] at h
      rcases h with h | h
      · exact Or.inl h
      · exact Or.inr (List.mem_cons_of_mem _ h)
    · simp only [replaceBy, if_neg hz, List.mem_cons] at h
      rcases h with h | h
      · exact Or.inr (h ▸ List.mem_cons_self _ _)
      · rcases ih h with h2 | h2
        · exact Or.inl h2
        · exact Or.inr (List.mem_cons_of_mem _ h2)

theorem target_transport {l1 l2 : List Transaction} {t t' : Transaction}
    (hg : t'.guid = t.guid)
    (hty : t'.transaction_type = t.transaction_type) {rg : String}
    (htgt : ∃ tgt ∈ l1 ++ t :: l2,
      tgt.guid = rg ∧ tgt.transaction_type = TYPE_CHARGE) :
    ∃ tgt ∈ l1 ++ t' :: l2,
      tgt.guid = rg ∧ tgt.transaction_type = TYPE_CHARGE := by
  obtain ⟨tgt, hmem, h1, h2⟩ := htgt
  rcases List.mem_append.mp hmem with hm | hm
  · exact ⟨tgt, List.mem_append_left _ hm, h1, h2⟩
  · rcases List.mem_cons.mp hm with hm | hm
    · subst hm
      exact ⟨t', List.mem_append_right _ (List.mem_cons_self _ _),
        hg.trans h1, hty.trans h2⟩
    · exact ⟨tgt, List.mem_append_right _ (List.mem_cons_of_mem _ hm),
        h1, h2⟩

theorem refundInv_congr {db db' : DB}
    (hts : db'.transactions = db.transactions) (h : RefundInv db) :
    RefundInv db' := by
  intro u hu rg hrg
  rw [hts] at hu
  obtain ⟨c1, c2, c3⟩ := h u hu rg hrg
  exact ⟨c1, c2, by rw [hts]; exact c3⟩

theorem findTransaction_self {db : DB} {g : String} {t : Transaction}
    (h : findTransaction db g = some t) :
    findTransaction db t.guid = some t := by
  have hg : t.guid = g := findBy_key h
  rw [hg]
  exact h

/-- Replacing the first row keyed by the guid of t with a row that agrees
with t on guid, type, refund target and payment_uri preserves the refund
invariant. -/
theorem refundInv_replace {db : DB} (h : RefundInv db) {t t' : Transaction}
    (hfind : findTransaction db t.guid = some t)
    (hg : t'.guid = t.guid)
    (hty : t'.transaction_type = t.transaction_type)
    (hr : t'.refund_to_guid = t.refund_to_guid)
    (hp : t'.payment_uri = t.payment_uri) :
    RefundInv (upsertTransaction db t') := by
  have hfind' : findBy (fun x : Transaction => x.guid) t'.guid
      db.transactions = some t := by
    rw [hg]; exact hfind
  obtain ⟨l1, l2, hl, hl'⟩ := replaceBy_eq_of_findBy t' hfind'
  have hnew : (upsertTransaction db t').transactions = l1 ++ t' :: l2 := hl'
  have hmemdb : ∀ v : Transaction, v ∈ l1 ∨ v ∈ l2 →
      v ∈ db.transactions := by
    intro v hv
    rw [hl]
    rcases hv with hv | hv
    · exact List.mem_append_left _ hv
    · exact List.mem_append_right _ (List.mem_cons_of_mem _ hv)
  intro u hu rg hrg
  rw [hnew] at hu ⊢
  rcases List.mem_append.mp hu with hm | hm
  · obtain ⟨c1, c2, c3⟩ := h u (hmemdb u (Or.inl hm)) rg hrg
    rw [hl] at c3
    exact ⟨c1, c2, target_transport hg hty c3⟩
  · rcases List.mem_cons.mp hm with hm | hm
    · subst hm
      have htmem : t ∈ db.transactions := findBy_mem hfind
      have hrg' : t.refund_to_guid = some rg := by rw [← hr]; exact hrg
      obtain ⟨c1, c2, c3⟩ := h t htmem rg hrg'
      rw [hl] at c3
      exact ⟨hty.trans c1, hp.trans c2, target_transport hg hty c3⟩
    · obtain ⟨c1, c2, c3⟩ := h u (hmemdb u (Or.inr hm)) rg hrg
      rw [hl] at c3
      exact ⟨c1, c2, target_transport hg hty c3⟩

/-- Appending a row whose refund fields are valid against the current
store preserves the refund invariant. -/
theorem refundInv_append (db : DB) (tx : Transaction) (h : RefundInv db)
    (htx : ∀ rg, tx.refund_to_guid = some rg →
      tx.transaction_type = TYPE_REFUND ∧ tx.payment_uri = none ∧
      ∃ tgt ∈ db.transactions, tgt.guid = rg ∧
        tgt.transaction_type = TYPE_CHARGE) :
    RefundInv { db with transactions := db.transactions ++ [tx] } := by
  intro u hu rg hrg
  rcases List.mem_append.mp hu with hm | hm
  · obtain ⟨c1, c2, tgt, htm, t1, t2⟩ := h u hm rg hrg
    exact ⟨c1, c2, tgt, List.mem_append_left _ htm, t1, t2⟩
  · have heq : u = tx := by simpa using hm
    subst heq
    obtain ⟨c1, c2, tgt, htm, t1, t2⟩ := htx rg hrg
    exact ⟨c1, c2, tgt, List.mem_append_left _ htm, t1, t2⟩

theorem create_refundInv (db : DB) (sg : String) (ty am sa : Nat)
    (pu rg0 : Option String) (ng : String) (now : Nat)
    (h : RefundInv db) :
    RefundInv (create db sg ty am sa pu rg0 ng now).2 := by
  unfold create
  by_cases hin : ty ∈ TYPE_ALL
  · rw [if_pos hin]
    cases rg0 with
    | none =>
      dsimp only
      exact refundInv_append db _ h (fun rg hrg => by simp at hrg)
    | some rgv =>
      dsimp only
      by_cases hrefund : ty = TYPE_REFUND
      · rw [if_pos hrefund]
        cases pu with
        | some u => exact h
        | none =>
          dsimp only
          cases hfind : findTransaction db rgv with
          | none => exact h
          | some rt =>
            dsimp only
            by_cases hcharge : rt.transaction_type = TYPE_CHARGE
            · rw [if_pos hcharge]
              dsimp only
              refine refundInv_append db _ h ?_
              intro rg hrg
              have hrg' : rgv = rg := by simpa using hrg
              subst hrg'
              exact ⟨hrefund, rfl, rt, findBy_mem hfind,
                findBy_key hfind, hcharge⟩
            · rw [if_neg hcharge]
              exact h
      · rw [if_neg hrefund]
        exact h
  · rw [if_neg hin]
    exact h

theorem update_refundInv (db : DB) (g : String) (args : UpdateArgs)
    (now : Nat) (h : RefundInv db) :
    RefundInv (update db g args now).2 := by
  unfold update
  cases hfind : findTransaction db g with
  | none => exact h
  | some t =>
    dsimp only
    cases args.status with
    | some s =>
      dsimp only
      by_cases hin : s ∈ STATUS_ALL
      · rw [if_pos hin]
        by_cases hex : args.extra = []
        · rw [if_pos hex]
          exact refundInv_replace h (findTransaction_self hfind) rfl rfl
            rfl rfl
        · rw [if_neg hex]
          exact h
      · rw [if_neg hin]
        exact h
    | none =>
      dsimp only
      by_cases hex : args.extra = []
      · rw [if_pos hex]
        exact refundInv_replace h (findTransaction_self hfind) rfl rfl
          rfl rfl
      · rw [if_neg hex]
        exact h

theorem process_one_refundInv (p : Processor) (db : DB) (t : Transaction)
    (mr n1 n2 : Nat) (h : RefundInv db)
    (hfind : findTransaction db t.guid = some t) :
    RefundInv (process_one p db t mr n1 n2).2.1 := by
  obtain ⟨mid, hts, _, _, hcase⟩ := process_one_db_shape p db t mr n1 n2
  have hmid : RefundInv mid := refundInv_congr hts h
  have hfindmid : findTransaction mid t.guid = some t := by
    unfold findTransaction at hfind ⊢
    rw [hts]
    exact hfind
  rcases hcase with heq | ⟨e, heq⟩ | ⟨tid, heq⟩
  · rw [heq]; exact hmid
  · rw [heq]
    exact refundInv_replace hmid hfindmid (failedTransaction_guid t e mr n1)
      (failedTransaction_type t e mr n1)
      (failedTransaction_refund t e mr n1)
      (failedTransaction_payment t e mr n1)
  · rw [heq]
    exact refundInv_replace hmid hfindmid rfl rfl rfl rfl

theorem runBatch_refundInv (p : Processor) (mr : Nat)
    (times : Nat → Nat × Nat) (ts : List Transaction) :
    ∀ i db, RefundInv db →
    (∀ t ∈ ts, findTransaction db t.guid = some t) →
    ((ts.map fun t => t.guid).Nodup) →
    RefundInv (runBatch p mr times i db ts).2 := by
  induction ts with
  | nil => intro i db h _ _; exact h
  | cons t rest ih =>
    intro i db h hfind hnd
    have hft : findTransaction db t.guid = some t := hfind t (by simp)
    have hpres : RefundInv
        (process_one p db t mr (times i).1 (times i).2).2.1 :=
      process_one_refundInv p db t mr (times i).1 (times i).2 h hft
    rw [List.map_cons, List.nodup_cons] at hnd
    have hne : ∀ t2 ∈ rest, t2.guid ≠ t.guid := by
      intro t2 ht2 heq
      exact hnd.1 (heq ▸ List.mem_map_of_mem _ ht2)
    have hfindrest : ∀ t2 ∈ rest,
        findTransaction
          (process_one p db t mr (times i).1 (times i).2).2.1 t2.guid =
        some t2 := by
      intro t2 ht2
      rw [process_one_find_ne p db t mr (times i).1 (times i).2
        (hne t2 ht2)]
      exact hfind t2 (List.mem_cons_of_mem _ ht2)
    unfold runBatch
    dsimp only
    cases hp1 : (process_one p db t mr (times i).1 (times i).2).1 with
    | ok =>
      cases hr2 : runBatch p mr times (i + 1)
          (process_one p db t mr (times i).1 (times i).2).2.1 rest with
      | mk br db2 =>
        have hrec := ih (i + 1)
          (process_one p db t mr (times i).1 (times i).2).2.1
          hpres hfindrest hnd.2
        rw [hr2] at hrec
        cases br <;> exact hrec
    | invalidArg => exact hpres
    | attrError => exact hpres
    | fatal => exact hpres

theorem errInv_congr {db db' : DB}
    (hts : db'.transactions = db.transactions) (h : ErrorMessageInv db) :
    ErrorMessageInv db' := by
  intro u hu
  rw [hts] at hu
  exact h u hu

theorem errInv_replace {db : DB} (h : ErrorMessageInv db)
    {t' : Transaction}
    (ht' : t'.error_message.isSome → 1 ≤ t'.failure_count) :
    ErrorMessageInv (upsertTransaction db t') := by
  intro u hu
  rcases mem_replaceBy hu with hev | hev
  · subst hev; exact ht'
  · exact h u hev

theorem errInv_append (db : DB) (tx : Transaction) (h : ErrorMessageInv db)
    (htx : tx.error_message.isSome → 1 ≤ tx.failure_count) :
    ErrorMessageInv { db with transactions := db.transactions ++ [tx] } := by
  intro u hu
  rcases List.mem_append.mp hu with hm | hm
  · exact h u hm
  · have heq : u = tx := by simpa using hm
    subst heq
    exact htx

theorem create_errInv (db : DB) (sg : String) (ty am sa : Nat)
    (pu rg0 : Option String) (ng : String) (now : Nat)
    (h : ErrorMessageInv db) :
    ErrorMessageInv (create db sg ty am sa pu rg0 ng now).2 := by
  unfold create
  by_cases hin : ty ∈ TYPE_ALL
  · rw [if_pos hin]
    cases rg0 with
    | none =>
      dsimp only
      exact errInv_append db _ h (fun hsome => by simp at hsome)
    | some rgv =>
      dsimp only
      by_cases hrefund : ty = TYPE_REFUND
      · rw [if_pos hrefund]
        cases pu with
        | some u => exact h
        | none =>
          dsimp only
          cases hfind : findTransaction db rgv with
          | none => exact h
          | some rt =>
            dsimp only
            by_cases hcharge : rt.transaction_type = TYPE_CHARGE
            · rw [if_pos hcharge]
              dsimp only
              exact errInv_append db _ h (fun hsome => by simp at hsome)
            · rw [if_neg hcharge]
              exact h
      · rw [if_neg hrefund]
        exact h
  · rw [if_neg hin]
    exact h

theorem update_errInv (db : DB) (g : String) (args : UpdateArgs)
    (now : Nat) (h : ErrorMessageInv db) :
    ErrorMessageInv (update db g args now).2 := by
  unfold update
  cases hfind : findTransaction db g with
  | none => exact h
  | some t =>
    dsimp only
    have hcond : t.error_message.isSome → 1 ≤ t.failure_count :=
      h t (findBy_mem hfind)
    cases args.status with
    | some s =>
      dsimp only
      by_cases hin : s ∈ STATUS_ALL
      · rw [if_pos hin]
        by_cases hex : args.extra = []
        · rw [if_pos hex]
          exact errInv_replace h hcond
        · rw [if_neg hex]
          exact h
      · rw [if_neg hin]
        exact h
    | none =>
      dsimp only
      by_cases hex : args.extra = []
      · rw [if_pos hex]
        exact errInv_replace h hcond
      · rw [if_neg hex]
        exact h

theorem process_one_errInv (p : Processor) (db : DB) (t : Transaction)
    (mr n1 n2 : Nat) (h : ErrorMessageInv db)
    (hfind : findTransaction db t.guid = some t) :
    ErrorMessageInv (process_one p db t mr n1 n2).2.1 := by
  obtain ⟨mid, hts, _, _, hcase⟩ := process_one_db_shape p db t mr n1 n2
  have hmid : ErrorMessageInv mid := errInv_congr hts h
  have hcond : t.error_message.isSome → 1 ≤ t.failure_count :=
    h t (findBy_mem hfind)
  rcases hcase with heq | ⟨e, heq⟩ | ⟨tid, heq⟩
  · rw [heq]; exact hmid
  · rw [heq]
    refine errInv_replace hmid ?_
    intro _
    rw [failedTransaction_count]
    omega
  · rw [heq]
    refine errInv_replace hmid ?_
    intro hsome
    exact hcond hsome

theorem runBatch_errInv (p : Processor) (mr : Nat)
    (times : Nat → Nat × Nat) (ts : List Transaction) :
    ∀ i db, ErrorMessageInv db →
    (∀ t ∈ ts, findTransaction db t.guid = some t) →
    ((ts.map fun t => t.guid).Nodup) →
    ErrorMessageInv (runBatch p mr times i db ts).2 := by
  induction ts with
  | nil => intro i db h _ _; exact h
  | cons t rest ih =>
    intro i db h hfind hnd
    have hft : findTransaction db t.guid = some t := hfind t (by simp)
    have hpres : ErrorMessageInv
        (process_one p db t mr (times i).1 (times i).2).2.1 :=
      process_one_errInv p db t mr (times i).1 (times i).2 h hft
    rw [List.map_cons, List.nodup_cons] at hnd
    have hne : ∀ t2 ∈ rest, t2.guid ≠ t.guid := by
      intro t2 ht2 heq
      exact hnd.1 (heq ▸ List.mem_map_of_mem _ ht2)
    have hfindrest : ∀ t2 ∈ rest,
        findTransaction
          (process_one p db t mr (times i).1 (times i).2).2.1 t2.guid =
        some t2 := by
      intro t2 ht2
      rw [process_one_find_ne p db t mr (times i).1 (times i).2
        (hne t2 ht2)]
      exact hfind t2 (List.mem_cons_of_mem _ ht2)
    unfold runBatch
    dsimp only
    cases hp1 : (process_one p db t mr (times i).1 (times i).2).1 with
    | ok =>
      cases hr2 : runBatch p mr times (i + 1)
          (process_one p db t mr (times i).1 (times i).2).2.1 rest with
      | mk br db2 =>
        have hrec := ih (i + 1)
          (process_one p db t mr (times i).1 (times i).2).2.1
          hpres hfindrest hnd.2
        rw [hr2] at hrec
        cases br <;> exact hrec
    | invalidArg => exact hpres
    | attrError => exact hpres
    | fatal => exact hpres

/-- C9 counterexample: create accepts a refund transaction with no
refund_to_guid and with a payment_uri, so the engine produces a stored
transaction of type Refund whose refund_target is absent and whose
payment_uri is present — against the claim that every Refund references a
Charge and carries no payment_uri. -/
theorem refund_fields_counterexample :
    (create emptyDB "SU1" TYPE_REFUND 100 0 (some "/v1/cards/x") none
        "G9" 3).1 = .ok "TXG9" ∧
    ((create emptyDB "SU1" TYPE_REFUND 100 0 (some "/v1/cards/x") none
        "G9" 3).2.transactions.map
      fun t => (t.transaction_type, t.refund_to_guid, t.payment_uri)) =
      [(TYPE_REFUND, none, some "/v1/cards/x")] :=
  ⟨rfl, by decide⟩

/-- C9 amended: whenever refund_to_guid is set on a stored transaction,
that transaction is of type Refund, carries no payment_uri, and its target
is a stored transaction of type Charge; this invariant is established by
create for the rows it appends and preserved by create, update,
process_one (on a fetched row) and process_transactions (under unique
identifiers).  A transaction of type Refund created without a
refund_to_guid, however, may carry a payment_uri. -/
theorem refund_fields_invariant (db : DB) (h : RefundInv db) :
    (∀ sg ty am sa pu rg0 ng now,
      RefundInv (create db sg ty am sa pu rg0 ng now).2) ∧
    (∀ g args now, RefundInv (update db g args now).2) ∧
    (∀ p t mr n1 n2, findTransaction db t.guid = some t →
      RefundInv (process_one p db t mr n1 n2).2.1) ∧
    (∀ p guids mr times,
      ((db.transactions.map fun t => t.guid).Nodup) →
      RefundInv (process_transactions p db guids mr times).2) := by
  refine ⟨fun sg ty am sa pu rg0 ng now =>
            create_refundInv db sg ty am sa pu rg0 ng now h,
          fun g args now => update_refundInv db g args now h,
          fun p t mr n1 n2 hf =>
            process_one_refundInv p db t mr n1 n2 h hf,
          fun p guids mr times hnd => ?_⟩
  have hsub : ∀ t ∈ selectEligible db guids,
      findTransaction db t.guid = some t := by
    intro t ht
    exact findBy_of_mem_nodup (List.mem_filter.mp ht).1 hnd
  have hsl : ((selectEligible db guids).map fun t => t.guid).Sublist
      (db.transactions.map fun t => t.guid) :=
    (List.filter_sublist _).map _
  have hndsel : ((selectEligible db guids).map fun t => t.guid).Nodup :=
    List.Nodup.sublist hsl hnd
  exact runBatch_refundInv p mr times (selectEligible db guids) 0 db h
    hsub hndsel

/-- C9 amended witness: the invariant holds of a concrete store and is
preserved by a concrete refund-creating call, a concrete cancellation, a
concrete failing process_one and a concrete batch. -/
theorem refund_fields_invariant_witness :
    RefundInv sampleDB ∧
    RefundInv (create sampleDB "SU1" TYPE_REFUND 100 0 (some "/u") none
      "G9" 3).2 ∧
    RefundInv (update sampleDB "TXA" cancelArgs 3).2 ∧
    RefundInv
      (process_one failProcessor sampleDB (sampleTx "TXA" 1) 10 5 6).2.1 ∧
    RefundInv (process_transactions okProcessor sampleDB none 10
      (fun _ => (0, 0))).2 :=
  have hinv : RefundInv sampleDB := by
    intro t ht rg hrg
    simp only [sampleDB, List.mem_singleton] at ht
    subst ht
    simp [sampleTx] at hrg
  ⟨hinv,
   (refund_fields_invariant sampleDB hinv).1 "SU1" TYPE_REFUND 100 0
     (some "/u") none "G9" 3,
   (refund_fields_invariant sampleDB hinv).2.1 "TXA" cancelArgs 3,
   (refund_fields_invariant sampleDB hinv).2.2.1 failProcessor
     (sampleTx "TXA" 1) 10 5 6 (by decide),
   (refund_fields_invariant sampleDB hinv).2.2.2 okProcessor none 10
     (fun _ => (0, 0)) (by decide)⟩

/-- C10 counterexample: a failing attempt leaves TXA Retrying with
error_message set, and a later successful attempt moves it to Done without
clearing error_message — so a Done transaction reachable through the
engine's operations carries an error_message, against the claim that
error_message is present only in Retrying or Failed. -/
theorem error_message_counterexample :
    (process_one failProcessor sampleDB (sampleTx "TXA" 1) 10 5 6).1 =
      .ok ∧
    (findTransaction failedOnceDB "TXA").map
        (fun t => (t.status, t.error_message)) =
      some (STATUS_RETRYING, some "boom") ∧
    (process_one okProcessor failedOnceDB failedOnceTx 10 7 8).1 = .ok ∧
    (findTransaction thenDoneDB "TXA").map
        (fun t => (t.status, t.error_message)) =
      some (STATUS_DONE, some "boom") :=
  ⟨by decide, by decide, by decide, by decide⟩

/-- C10 amended: a stored transaction carries an error_message only after
at least one failed attempt (failure_count at least 1); the message is
recorded by failed attempts and never cleared, so it can remain present
after the status leaves Retrying or Failed (for example in Done after a
later success, or in Canceled after a manual update).  The invariant is
established by create and preserved by create, update, process_one (on a
fetched row) and process_transactions (under unique identifiers). -/
theorem error_message_invariant (db : DB) (h : ErrorMessageInv db) :
    (∀ sg ty am sa pu rg0 ng now,
      ErrorMessageInv (create db sg ty am sa pu rg0 ng now).2) ∧
    (∀ g args now, ErrorMessageInv (update db g args now).2) ∧
    (∀ p t mr n1 n2, findTransaction db t.guid = some t →
      ErrorMessageInv (process_one p db t mr n1 n2).2.1) ∧
    (∀ p guids mr times,
      ((db.transactions.map fun t => t.guid).Nodup) →
      ErrorMessageInv (process_transactions p db guids mr times).2) := by
  refine ⟨fun sg ty am sa pu rg0 ng now =>
            create_errInv db sg ty am sa pu rg0 ng now h,
          fun g args now => update_errInv db g args now h,
          fun p t mr n1 n2 hf => process_one_errInv p db t mr n1 n2 h hf,
          fun p guids mr times hnd => ?_⟩
  have hsub : ∀ t ∈ selectEligible db guids,
      findTransaction db t.guid = some t := by
    intro t ht
    exact findBy_of_mem_nodup (List.mem_filter.mp ht).1 hnd
  have hsl : ((selectEligible db guids).map fun t => t.guid).Sublist
      (db.transactions.map fun t => t.guid) :=
    (List.filter_sublist _).map _
  have hndsel : ((selectEligible db guids).map fun t => t.guid).Nodup :=
    List.Nodup.sublist hsl hnd
  exact runBatch_errInv p mr times (selectEligible db guids) 0 db h
    hsub hndsel

/-- C10 amended witness: the invariant holds of a concrete store and is
preserved by concrete calls of the four operations. -/
theorem error_message_invariant_witness :
    ErrorMessageInv sampleDB ∧
    ErrorMessageInv (create sampleDB "SU1" TYPE_CHARGE 100 0 (some "/u")
      none "G9" 3).2 ∧
    ErrorMessageInv (update sampleDB "TXA" cancelArgs 3).2 ∧
    ErrorMessageInv
      (process_one failProcessor sampleDB (sampleTx "TXA" 1) 10 5 6).2.1 ∧
    ErrorMessageInv (process_transactions okProcessor sampleDB none 10
      (fun _ => (0, 0))).2 :=
  have hinv : ErrorMessageInv sampleDB := by
    intro t ht hsome
    simp only [sampleDB, List.mem_singleton] at ht
    subst ht
    simp [sampleTx] at hsome
  ⟨hinv,
   (error_message_invariant sampleDB hinv).1 "SU1" TYPE_CHARGE 100 0
     (some "/u") none "G9" 3,
   (error_message_invariant sampleDB hinv).2.1 "TXA" cancelArgs 3,
   (error_message_invariant sampleDB hinv).2.2.1 failProcessor
     (sampleTx "TXA" 1) 10 5 6 (by decide),
   (error_message_invariant sampleDB hinv).2.2.2 okProcessor none 10
     (fun _ => (0, 0)) (by decide)⟩

end Billy
